import Mathlib

/-!
Verification of the websocket fan-out server in `kuro337/golibs` (package
`websockets`, current generation: `handlers.go` plus the `Client` registry
file).  The sequential behaviour of each operation is embedded as a Lean
function; lock usage, writes, closes and map mutations are recorded as an
explicit trace of `Action`s so that ordering and lock-discipline properties
can be stated and decided.
-/

namespace GoLibs.Websockets

/-- Lifecycle status vocabulary from the design document.  The Go `Client`
struct (`Client { Conn *websocket.Conn; Mu sync.Mutex }`) carries no such
field; the constructor exists only so that status-related requirements can
be stated (and refuted) against the traces the code actually produces. -/
inductive Status where
  | active
  | draining
  | closed
deriving DecidableEq, Repr

/-- One observable step of a server operation.  Connections are identified
by a numeric stand-in for the `*websocket.Conn` handle.  `write c ok`
records an outbound `WriteMessage`/`WriteJSON` attempt on handle `c` and
whether the transport reported success. -/
inductive Action where
  | regRLock
  | regRUnlock
  | regWLock
  | regWUnlock
  | connLock (c : Nat)
  | connUnlock (c : Nat)
  | write (c : Nat) (ok : Bool)
  | closeHandle (c : Nat)
  | setStatus (c : Nat) (st : Status)
  | mapDelete (c : Nat)
  | mapInsert (c : Nat)
  | incrSent
  | incrReceived
  | telemetry
  | shutdownListener
deriving DecidableEq, Repr

/-- Model of `RemoveConnection(conn)` from the `Client` registry file: takes
`activeClientsMu.Lock()` with a deferred unlock, collects every `Client`
whose `Conn` equals `conn`, waits on each one's `Mu` (lock then unlock,
inside the WaitGroup goroutines), then deletes the collected clients from
`activeClients`.  The registry is modelled as the list of handles currently
in the map (one element per `Client` pointer). -/
def removeConnectionTrace (clients : List Nat) (conn : Nat) : List Action :=
  let connsToRemove := clients.filter (fun x => x == conn)
  Action.regWLock ::
    ((connsToRemove.flatMap fun c => [Action.connLock c, Action.connUnlock c])
      ++ connsToRemove.map Action.mapDelete
      ++ [Action.regWUnlock])

/-- The registry contents after `RemoveConnection(conn)`: every client whose
handle equals `conn` has been deleted from the map. -/
def removeConnectionClients (clients : List Nat) (conn : Nat) : List Nat :=
  clients.filter (fun x => !(x == conn))

def isClose : Action → Bool
  | Action.closeHandle _ => true
  | _ => false

def isSetStatus : Action → Bool
  | Action.setStatus _ _ => true
  | _ => false

def isConnLock : Action → Bool
  | Action.connLock _ => true
  | _ => false

def isMapDelete : Action → Bool
  | Action.mapDelete _ => true
  | _ => false

def isRegWAction : Action → Bool
  | Action.regWLock => true
  | Action.regWUnlock => true
  | _ => false

/-- Actions the body of `RemoveConnection` (between taking and releasing the
registry write lock) is made of. -/
def plainConnAction : Action → Bool
  | Action.connLock _ => true
  | Action.connUnlock _ => true
  | Action.mapDelete _ => true
  | _ => false

/-- Scans a trace tracking whether the registry write lock is held and
checks that every action selected by `trigger` happens while the held-state
equals `want`. -/
def regWStateOK (trigger : Action → Bool) (want : Bool) : List Action → Bool → Bool
  | [], _ => true
  | a :: tr, inW =>
    ((!(trigger a)) || (inW == want))
      && regWStateOK trigger want tr
        (if a = Action.regWLock then true
         else if a = Action.regWUnlock then false
         else inW)

/-- Checks that every `mapDelete c` in the trace is preceded by a
`connUnlock c`, i.e. the entry's write lock was acquired and released
(the drain) before the entry left the map. -/
def drainedThenDeleted : List Action → List Nat → Bool
  | [], _ => true
  | Action.connUnlock c :: tr, s => drainedThenDeleted tr (c :: s)
  | Action.mapDelete c :: tr, s => s.contains c && drainedThenDeleted tr s
  | _ :: tr, s => drainedThenDeleted tr s

/-- Greedy subsequence test: does the first list occur, in order though not
necessarily contiguously, inside the second? -/
def isSubseqA : List Action → List Action → Bool
  | [], _ => true
  | _ :: _, [] => false
  | a :: p, b :: t => if a = b then isSubseqA p t else isSubseqA (a :: p) t

/-- Claim C2 as stated: `Remove` performs, in order, status := Draining,
acquire the entry's writeLock, close the transport handle, status := Closed,
delete from the map; the writeLock acquisition and the close happen while
the registry lock is not held, and only the deletion happens under the
registry write lock. -/
def removeContractClaim (clients : List Nat) (conn : Nat) : Bool :=
  let tr := removeConnectionTrace clients conn
  isSubseqA
      [Action.setStatus conn Status.draining, Action.connLock conn,
       Action.closeHandle conn, Action.setStatus conn Status.closed,
       Action.mapDelete conn] tr
    && regWStateOK isConnLock false tr false
    && regWStateOK isClose false tr false
    && regWStateOK isMapDelete true tr false

/-- Splits a trace into the segments executed while the registry write lock
is held. -/
def regWSectionsAux : List Action → Option (List Action) → List (List Action)
  | [], none => []
  | [], some cur => [cur]
  | Action.regWLock :: tr, _ => regWSectionsAux tr (some [])
  | Action.regWUnlock :: tr, some cur => cur :: regWSectionsAux tr none
  | a :: tr, some cur => regWSectionsAux tr (some (cur ++ [a]))
  | _ :: tr, none => regWSectionsAux tr none

/-- Within one registry-write-lock critical section, every deletion of an
entry must be accompanied by that entry's status being set to Closed. -/
def sectionDeletesFlipClosed (s : List Action) : Bool :=
  s.all fun a =>
    match a with
    | Action.mapDelete c => s.contains (Action.setStatus c Status.closed)
    | _ => true

/-- Claim C9's refutable part as stated: an entry is deleted from the map in
the same critical section in which its status is set to Closed. -/
def statusDeleteClaim (clients : List Nat) (conn : Nat) : Bool :=
  (regWSectionsAux (removeConnectionTrace clients conn) none).all
    sectionDeletesFlipClosed


/-- The `payload interface{}` argument a message handler receives: either a
JSON string (the only shape the echo and broadcast handlers accept via
`payload.(string)`) or any other decoded value. -/
inductive Payload where
  | str (s : String)
  | other
deriving DecidableEq, Repr

/-- Model of `BroadcastHandler` from `handlers.go`: casts the payload to a string
(returning immediately on failure), read-locks the registry, and for every
client in the map locks its `Mu`, writes the broadcast envelope with
`WriteJSON`, logs and keeps going on error, unlocks `Mu`, and increments the
messages-sent counter unconditionally.  `writeOk c` is the transport's
verdict for the write to client `c`. -/
def broadcastTrace (clients : List Nat) (writeOk : Nat → Bool)
    (payload : Payload) : List Action :=
  match payload with
  | Payload.other => []
  | Payload.str _ =>
    Action.regRLock ::
      ((clients.flatMap fun c =>
          [Action.connLock c, Action.write c (writeOk c),
           Action.connUnlock c, Action.incrSent])
        ++ [Action.regRUnlock])

/-- Model of `EchoHandler` from `handlers.go`: casts the payload to a string
(returning on failure), marshals the echo envelope, calls
`conn.WriteMessage` directly on the handle — without touching any client
`Mu` — and increments the messages-sent counter even when the write
errored. -/
def echoTrace (c : Nat) (writeOk : Bool) (payload : Payload) : List Action :=
  match payload with
  | Payload.other => []
  | Payload.str _ => [Action.write c writeOk, Action.incrSent]

/-- Model of `HealthCheckHandler` from `handlers.go`: marshals a fixed acknowledgment
and calls `conn.WriteMessage` directly on the handle, again without any
per-entry lock, incrementing the messages-sent counter unconditionally. -/
def healthCheckTrace (c : Nat) (writeOk : Bool) : List Action :=
  [Action.write c writeOk, Action.incrSent]

def isWriteA : Action → Bool
  | Action.write _ _ => true
  | _ => false

def isSuccessWriteA : Action → Bool
  | Action.write _ ok => ok
  | _ => false

def isIncrSentA : Action → Bool
  | Action.incrSent => true
  | _ => false

/-- Number of outbound write attempts recorded in a trace. -/
def countWrites (tr : List Action) : Nat := tr.countP fun a => isWriteA a

/-- Number of write attempts the transport reported as successful. -/
def countSuccessfulWrites (tr : List Action) : Nat :=
  tr.countP fun a => isSuccessWriteA a

/-- Number of messages-sent counter increments recorded in a trace. -/
def countSentIncrements (tr : List Action) : Nat :=
  tr.countP fun a => isIncrSentA a

/-- Claim C3 as stated: a broadcast to `clients` attempts exactly one write
per client and the messages-sent counter increases by the number of writes
that succeed. -/
def broadcastCompletenessClaim (clients : List Nat) (writeOk : Nat → Bool)
    (payloadStr : String) : Bool :=
  let tr := broadcastTrace clients writeOk (Payload.str payloadStr)
  (countWrites tr == clients.length)
    && (countSentIncrements tr == countSuccessfulWrites tr)

/-- Checks that every write in the trace happens while that connection's
write lock is held, tracking the set of currently held per-entry locks. -/
def writesLockedAux : List Action → List Nat → Bool
  | [], _ => true
  | Action.connLock c :: tr, held => writesLockedAux tr (c :: held)
  | Action.connUnlock c :: tr, held => writesLockedAux tr (held.erase c)
  | Action.write c _ :: tr, held => held.contains c && writesLockedAux tr held
  | _ :: tr, held => writesLockedAux tr held


/-- A decoded JSON value as far as the dispatcher inspects it: the unchecked
assertion `messageData["type"].(string)` only cares whether the value is a
string. -/
inductive JsonVal where
  | str (s : String)
  | num (n : Int)
  | boolean (b : Bool)
  | null
  | arr
  | obj
deriving DecidableEq, Repr

/-- An inbound frame as seen after `json.Unmarshal` into
`map[string]interface{}`: either the bytes failed to decode into an object
(`notJson`, which also covers valid JSON that is not an object) or they
decoded into a field map. -/
inductive Frame where
  | notJson
  | jsonObj (fields : List (String × JsonVal))
deriving DecidableEq, Repr

/-- Message-type handlers registered in `WSConnHandlers` by `EnableAll`. -/
inductive WsHandlerTag where
  | echo
  | broadcast
  | healthcheck
deriving DecidableEq, Repr

/-- What one dispatch of an inbound frame does: invoke a handler, drop the
frame and continue, log an unsupported type, or panic on the unchecked
`.(string)` type assertion. -/
inductive LoopOutcome where
  | panicked
  | dropped
  | handled (t : WsHandlerTag)
  | unsupported
deriving DecidableEq, Repr

/-- The dispatch portion of `RootSocketHandler`'s read loop: unmarshal
failure logs and continues; otherwise `messageData["type"].(string)` is
asserted without a check — a missing or non-string `type` value panics —
and the resulting key is looked up in `WSConnHandlers`. -/
def processFrame (handlers : List (String × WsHandlerTag)) :
    Frame → LoopOutcome
  | Frame.notJson => LoopOutcome.dropped
  | Frame.jsonObj fields =>
    match List.lookup "type" fields with
    | some (JsonVal.str t) =>
      match List.lookup t handlers with
      | some h => LoopOutcome.handled h
      | none => LoopOutcome.unsupported
    | _ => LoopOutcome.panicked

/-- The dynamic type of a read error, as `handleSocketError` classifies it:
the call site passes `&websocket.CloseError{}` and `&net.OpError{}` as the
expected types; anything else is unexpected. -/
inductive ErrType where
  | closeError
  | opError
  | otherErr
deriving DecidableEq, Repr

/-- Model of `handleSocketError` as called by the read loop: it
returns `expected = true` exactly when the error's dynamic type matches one
of the two expected types. -/
def expectedSocketErr : ErrType → Bool
  | ErrType.closeError => true
  | ErrType.opError => true
  | ErrType.otherErr => false

/-- Result of one `conn.ReadMessage()` call. -/
inductive ReadResult where
  | ok (f : Frame)
  | err (t : ErrType)
deriving DecidableEq, Repr

/-- Result of one iteration of the read loop: either the loop breaks, or it
continues, recording whether the messages-received counter was incremented
and what the dispatch did. -/
inductive IterResult where
  | breakLoop
  | cont (receivedCounted : Bool) (out : LoopOutcome)
deriving DecidableEq, Repr

/-- One iteration of `RootSocketHandler`'s read loop.  On a read error the
code breaks only when `handleSocketError` reports an expected type;
otherwise it falls through, increments the messages-received counter, fails
to unmarshal the nil message and continues.  On a successful read it
increments the counter and dispatches the frame. -/
def rootLoopIter (handlers : List (String × WsHandlerTag)) :
    ReadResult → IterResult
  | ReadResult.err t =>
    if expectedSocketErr t then IterResult.breakLoop
    else IterResult.cont true (processFrame handlers Frame.notJson)
  | ReadResult.ok f => IterResult.cont true (processFrame handlers f)

/-- The handler a registered route maps to.  `New` registers only
`http.HandlerFunc(s.RootSocketHandler)`; `nilEntry` marks a missing map
entry (calling it would nil-panic), and `notFound` exists to state that no
request is routed to a 404. -/
inductive HttpHandler where
  | rootSocket
  | notFound
  | nilEntry
deriving DecidableEq, Repr

/-- Model of `strings.SplitN(input, "/", 2)`. -/
def splitN2 (s : String) : List String :=
  match s.splitOn "/" with
  | [] => []
  | [p] => [p]
  | p :: rest => [p, String.intercalate "/" rest]

/-- Model of `parsePortAndPath` from the websockets package: the text before the
first `/` is the port; the remainder, when present and non-empty, is the
path (default empty). -/
def parsePortAndPath (input : String) : String × String :=
  let parts := splitN2 input
  let port := parts.headD ""
  let second := parts.getD 1 ""
  let path := if second = "" then "" else second
  (port, path)

/-- The `WsServer` fields relevant to routing and message dispatch:
`defaultHandler` is the route map consulted by `ServeHTTP`,
`wsConnHandlers` the message-type map consulted by the read loop. -/
structure WsSrv where
  port : String
  baseRoute : String
  defaultHandler : List (String × HttpHandler)
  wsConnHandlers : List (String × WsHandlerTag)
deriving DecidableEq, Repr

/-- Model of `New(port)` from `handlers.go`: parses port and path, sets
`baseRoute = "/" + path`, and registers the root socket handler as the
single entry of `defaultHandler`. -/
def newServer (portArg : String) : WsSrv :=
  let pp := parsePortAndPath portArg
  let br := "/" ++ pp.2
  { port := pp.1
    baseRoute := br
    defaultHandler := [(br, HttpHandler.rootSocket)]
    wsConnHandlers := [] }

/-- Model of `EnableAll` from `handlers.go`: registers the echo, broadcast and
health-check message handlers in `WSConnHandlers` (it does not touch the
`defaultHandler` route map). -/
def enableAll (s : WsSrv) : WsSrv :=
  { s with wsConnHandlers :=
      [("echo", WsHandlerTag.echo), ("broadcast", WsHandlerTag.broadcast),
       ("healthcheck", WsHandlerTag.healthcheck)] }

/-- Model of `ServeHTTP` from `handlers.go`: dispatches every request to
`s.defaultHandler[s.baseRoute]`, ignoring the request's URL path
entirely. -/
def serveHTTP (s : WsSrv) (_requestPath : String) : HttpHandler :=
  match List.lookup s.baseRoute s.defaultHandler with
  | some h => h
  | none => HttpHandler.nilEntry

/-- Process-wide telemetry counters. -/
structure Counters where
  conns : Nat
  sent : Nat
  received : Nat
deriving DecidableEq, Repr

/-- The lifecycle-relevant server state: whether `Start` has run
(`httpServer != nil`), the registry contents and the counters. -/
structure SrvState where
  started : Bool
  clients : List Nat
  counter : Counters
deriving DecidableEq, Repr

/-- The removal loop of `TerminateConnections`: `RemoveConnection` per
client of the (evolving) registry. -/
def terminateLoop : List Nat → List Nat → List Action
  | [], _ => []
  | c :: rest, cs =>
    removeConnectionTrace cs c ++ terminateLoop rest (removeConnectionClients cs c)

/-- Model of `TerminateConnections` from `handlers.go`: collects the handles under
the registry write lock, then removes each client. -/
def terminateConnectionsTrace (clients : List Nat) : List Action :=
  Action.regWLock :: Action.regWUnlock :: terminateLoop clients clients

/-- Model of `Stop` from `handlers.go`: if `httpServer` is nil it returns the
"server has not been started" error and does nothing else; otherwise it
terminates all connections, prints the final counters and shuts the
listener down with a bounded wait. -/
def stopFn (s : SrvState) : Except String Unit × SrvState × List Action :=
  if s.started then
    (Except.ok (), { s with clients := [] },
      terminateConnectionsTrace s.clients
        ++ [Action.telemetry, Action.shutdownListener])
  else
    (Except.error "server has not been started", s, [])

/-- The `maxRetries` constant in `BlockUntilReady`. -/
def maxRetries : Nat := 10

/-- The retry loop of `BlockUntilReady`: attempt `i` sleeps, dials the
server's own address and, on a successful dial, sends the health-check
envelope; it returns success with the number of attempts used, or the
"not ready" error once the attempt budget is exhausted.  `dialOk i` and
`writeOk i` are the transport's verdicts for attempt `i`. -/
def readyLoop (dialOk writeOk : Nat → Bool) : Nat → Nat → Except String Unit × Nat
  | i, 0 =>
    (Except.error ("server not ready after " ++ toString maxRetries
      ++ " attempts"), i)
  | i, n + 1 =>
    if dialOk i then
      if writeOk i then (Except.ok (), i + 1)
      else readyLoop dialOk writeOk (i + 1) n
    else readyLoop dialOk writeOk (i + 1) n

/-- Model of `BlockUntilReady` from `handlers.go`. -/
def blockUntilReady (dialOk writeOk : Nat → Bool) : Except String Unit × Nat :=
  readyLoop dialOk writeOk 0 maxRetries


lemma all_of_plain (p : Action → Bool)
    (hp : ∀ a, plainConnAction a = true → p a = true)
    (l : List Action) (hl : l.all plainConnAction = true) : l.all p = true := by
  rw [List.all_eq_true] at hl ⊢
  intro x hx
  exact hp x (hl x hx)

lemma plain_lockUnlock_flatMap (l : List Nat) :
    ((l.flatMap fun c => [Action.connLock c, Action.connUnlock c]).all
      plainConnAction) = true := by
  rw [List.all_eq_true]
  intro x hx
  rw [List.mem_flatMap] at hx
  obtain ⟨c, -, hx⟩ := hx
  simp only [List.mem_cons, List.not_mem_nil, or_false] at hx
  rcases hx with rfl | rfl <;> rfl

lemma plain_mapDelete_map (l : List Nat) :
    ((l.map Action.mapDelete).all plainConnAction) = true := by
  rw [List.all_eq_true]
  intro x hx
  rw [List.mem_map] at hx
  obtain ⟨c, -, rfl⟩ := hx
  rfl

/-- The body of `RemoveConnection` between the registry lock and unlock is
made of per-connection lock, unlock and map-delete actions only. -/
lemma removeBody_plain (l : List Nat) :
    (((l.flatMap fun c => [Action.connLock c, Action.connUnlock c])
        ++ l.map Action.mapDelete).all plainConnAction) = true := by
  rw [List.all_append, plain_lockUnlock_flatMap, plain_mapDelete_map]
  rfl

lemma regWStateOK_append_plain (trigger : Action → Bool) (want : Bool)
    (l rest : List Action) (hplain : l.all plainConnAction = true) :
    regWStateOK trigger want (l ++ rest) want
      = regWStateOK trigger want rest want := by
  induction l with
  | nil => rfl
  | cons a l ih =>
    rw [List.all_cons, Bool.and_eq_true] at hplain
    obtain ⟨ha, hl⟩ := hplain
    cases a <;> simp [plainConnAction] at ha <;>
      simp [regWStateOK, ih hl]

lemma drained_lockUnlock_flatMap (l : List Nat) (s : List Nat)
    (rest : List Action) :
    drainedThenDeleted
        ((l.flatMap fun c => [Action.connLock c, Action.connUnlock c]) ++ rest) s
      = drainedThenDeleted rest (l.reverse ++ s) := by
  induction l generalizing s with
  | nil => rfl
  | cons c l ih =>
    simp only [List.flatMap_cons, List.cons_append, List.nil_append,
      List.append_assoc]
    have h1 : ∀ (tl : List Action) (s' : List Nat),
        drainedThenDeleted (Action.connLock c :: tl) s'
          = drainedThenDeleted tl s' := fun _ _ => rfl
    have h2 : ∀ (tl : List Action) (s' : List Nat),
        drainedThenDeleted (Action.connUnlock c :: tl) s'
          = drainedThenDeleted tl (c :: s') := fun _ _ => rfl
    rw [h1, h2, ih]
    simp

lemma drained_mapDelete_map (l : List Nat) (s : List Nat)
    (h : ∀ c ∈ l, s.contains c = true) (rest : List Action) :
    drainedThenDeleted ((l.map Action.mapDelete) ++ rest) s
      = drainedThenDeleted rest s := by
  induction l with
  | nil => rfl
  | cons c l ih =>
    simp only [List.map_cons, List.cons_append]
    rw [drainedThenDeleted, h c (List.mem_cons_self c l),
      ih (fun x hx => h x (List.mem_cons_of_mem c hx))]
    rfl

lemma plain_not_close : ∀ a, plainConnAction a = true → (!(isClose a)) = true := by
  intro a; cases a <;> simp [plainConnAction, isClose]

lemma plain_not_setStatus :
    ∀ a, plainConnAction a = true → (!(isSetStatus a)) = true := by
  intro a; cases a <;> simp [plainConnAction, isSetStatus]

lemma all_removeShape (p : Action → Bool) (hreg1 : p Action.regWLock = true)
    (hreg2 : p Action.regWUnlock = true) (rest : List Action)
    (hrest : rest.all plainConnAction = true)
    (hp : ∀ a, plainConnAction a = true → p a = true) :
    ((Action.regWLock :: (rest ++ [Action.regWUnlock])).all p) = true := by
  rw [List.all_cons, List.all_append, hreg1, all_of_plain p hp rest hrest]
  simp [hreg2]

lemma regWStateOK_removeShape (trigger : Action → Bool)
    (h1 : trigger Action.regWLock = false)
    (h2 : trigger Action.regWUnlock = false)
    (rest : List Action) (h : rest.all plainConnAction = true) :
    regWStateOK trigger true
      (Action.regWLock :: (rest ++ [Action.regWUnlock])) false = true := by
  have e1 : regWStateOK trigger true
        (Action.regWLock :: (rest ++ [Action.regWUnlock])) false
      = (((!(trigger Action.regWLock)) || false)
          && regWStateOK trigger true (rest ++ [Action.regWUnlock]) true) := rfl
  rw [e1, h1, regWStateOK_append_plain trigger true rest [Action.regWUnlock] h]
  have e2 : regWStateOK trigger true [Action.regWUnlock] true
      = (((!(trigger Action.regWUnlock)) || true)
          && regWStateOK trigger true [] false) := rfl
  rw [e2, h2]
  rfl

lemma contains_of_mem {l : List Nat} {c : Nat} (h : c ∈ l) :
    l.contains c = true :=
  List.elem_eq_true_of_mem h

lemma drained_removeShape (l : List Nat) :
    drainedThenDeleted
      (Action.regWLock ::
        (((l.flatMap fun c => [Action.connLock c, Action.connUnlock c])
            ++ l.map Action.mapDelete) ++ [Action.regWUnlock])) [] = true := by
  have e0 : ∀ (tl : List Action) (s : List Nat),
      drainedThenDeleted (Action.regWLock :: tl) s
        = drainedThenDeleted tl s := fun _ _ => rfl
  rw [e0, List.append_assoc, drained_lockUnlock_flatMap,
    drained_mapDelete_map _ _ (fun c hc => contains_of_mem (by simpa using hc))]
  rfl


lemma countWrites_block (clients : List Nat) (writeOk : Nat → Bool) :
    ((clients.flatMap fun c =>
        [Action.connLock c, Action.write c (writeOk c),
         Action.connUnlock c, Action.incrSent]).countP fun a => isWriteA a)
      = clients.length := by
  induction clients with
  | nil => rfl
  | cons c l ih =>
    simp only [List.flatMap_cons, List.countP_append, ih, List.countP_cons,
      List.countP_nil, List.length_cons]
    simp [isWriteA]
    omega

lemma countSent_block (clients : List Nat) (writeOk : Nat → Bool) :
    ((clients.flatMap fun c =>
        [Action.connLock c, Action.write c (writeOk c),
         Action.connUnlock c, Action.incrSent]).countP fun a => isIncrSentA a)
      = clients.length := by
  induction clients with
  | nil => rfl
  | cons c l ih =>
    simp only [List.flatMap_cons, List.countP_append, ih, List.countP_cons,
      List.countP_nil, List.length_cons]
    simp [isIncrSentA]
    omega


lemma readyLoop_all_fail (dialOk writeOk : Nat → Bool) :
    ∀ (n i : Nat), (∀ j, i ≤ j → j < i + n → (dialOk j && writeOk j) = false) →
      readyLoop dialOk writeOk i n
        = (Except.error ("server not ready after " ++ toString maxRetries
            ++ " attempts"), i + n) := by
  intro n
  induction n with
  | zero => intro i _; rfl
  | succ n ih =>
    intro i h
    have hi : (dialOk i && writeOk i) = false := h i (le_refl i) (by omega)
    rw [Bool.and_eq_false_iff] at hi
    rw [readyLoop]
    have hrec := ih (i + 1) (fun j h1 h2 => h j (by omega) (by omega))
    rcases hi with hd | hw
    · rw [if_neg (by simp [hd]), hrec]
      rw [show i + 1 + n = i + (n + 1) from by omega]
    · by_cases hd : dialOk i = true
      · rw [if_pos hd, if_neg (by simp [hw]), hrec]
        rw [show i + 1 + n = i + (n + 1) from by omega]
      · rw [if_neg hd, hrec]
        rw [show i + 1 + n = i + (n + 1) from by omega]

lemma readyLoop_first_success (dialOk writeOk : Nat → Bool) :
    ∀ (n i k : Nat), i ≤ k → k < i + n → (dialOk k && writeOk k) = true →
      (∀ j, i ≤ j → j < k → (dialOk j && writeOk j) = false) →
      readyLoop dialOk writeOk i n = (Except.ok (), k + 1) := by
  intro n
  induction n with
  | zero => intro i k h1 h2 _ _; exact absurd h2 (by omega)
  | succ n ih =>
    intro i k h1 h2 hk hprev
    rw [Bool.and_eq_true] at hk
    rw [readyLoop]
    by_cases hik : i = k
    · subst hik
      rw [if_pos hk.1, if_pos hk.2]
    · have hlt : i < k := lt_of_le_of_ne h1 hik
      have hfail : (dialOk i && writeOk i) = false :=
        hprev i (le_refl i) hlt
      rw [Bool.and_eq_false_iff] at hfail
      have hrec := ih (i + 1) k (by omega) (by omega) (by simp [hk.1, hk.2])
        (fun j ha hb => hprev j (by omega) hb)
      rcases hfail with hd | hw
      · rw [if_neg (by simp [hd])]
        exact hrec
      · by_cases hd : dialOk i = true
        · rw [if_pos hd, if_neg (by simp [hw])]
          exact hrec
        · rw [if_neg hd]
          exact hrec

lemma notReady_message :
    ("server not ready after " ++ toString maxRetries ++ " attempts")
      = "server not ready after 10 attempts" := rfl


end GoLibs.Websockets

namespace GoLibs.Websockets

/-- C1 theorem: at the failing input (registry holding one client with
handle 1), `RemoveConnection` drains the client's write lock and deletes it
from the map, but the trace contains no close of the transport handle. -/
theorem removeConnection_never_closes_handle :
    ((removeConnectionTrace [1] 1).all fun a => !(isClose a)) = true
      ∧ Action.connLock 1 ∈ removeConnectionTrace [1] 1
      ∧ Action.mapDelete 1 ∈ removeConnectionTrace [1] 1 := by
  decide

/-- C2 counterexample: with a registry holding the single client 2,
`RemoveConnection 2` does not follow the claimed Draining → lock → close →
Closed → delete protocol (no status transition and no close ever occur, and
the write-lock acquisition happens inside the registry write lock). -/
theorem removeContractClaim_refuted : removeContractClaim [2] 2 = false := by
  decide

/-- C2 amended theorem: `RemoveConnection` never closes the transport handle
and never touches a lifecycle status (entries have none); the entry's
writeLock acquisition and the map deletion both happen while the registry
write lock is held (the whole operation runs under it); and every deletion
is preceded by acquiring and releasing that entry's writeLock. -/
theorem removeConnection_actual_contract (clients : List Nat) (conn : Nat) :
    ((removeConnectionTrace clients conn).all fun a => !(isClose a)) = true
      ∧ ((removeConnectionTrace clients conn).all fun a => !(isSetStatus a)) = true
      ∧ regWStateOK isConnLock true (removeConnectionTrace clients conn) false = true
      ∧ regWStateOK isMapDelete true (removeConnectionTrace clients conn) false = true
      ∧ drainedThenDeleted (removeConnectionTrace clients conn) [] = true := by
  refine ⟨?_, ?_, ?_, ?_, ?_⟩
  · simp only [removeConnectionTrace]
    exact all_removeShape _ rfl rfl _ (removeBody_plain _) plain_not_close
  · simp only [removeConnectionTrace]
    exact all_removeShape _ rfl rfl _ (removeBody_plain _) plain_not_setStatus
  · simp only [removeConnectionTrace]
    exact regWStateOK_removeShape isConnLock rfl rfl _ (removeBody_plain _)
  · simp only [removeConnectionTrace]
    exact regWStateOK_removeShape isMapDelete rfl rfl _ (removeBody_plain _)
  · simp only [removeConnectionTrace]
    exact drained_removeShape _

/-- C9 counterexample: with a registry holding the single client 5, the
critical section of `RemoveConnection 5` deletes the entry without any
status ever being set to Closed (no status exists to set). -/
theorem statusDeleteClaim_refuted : statusDeleteClaim [5] 5 = false := by
  decide

/-- C9 amended theorem: an entry is deleted from the map under the registry
write lock; no status transition accompanies it because entries carry no
status field (no `setStatus` action ever occurs); and after
`RemoveConnection conn` no entry with handle `conn` remains in the map. -/
theorem removeConnection_deletion_invariant (clients : List Nat) (conn : Nat) :
    regWStateOK isMapDelete true (removeConnectionTrace clients conn) false = true
      ∧ ((removeConnectionTrace clients conn).all fun a => !(isSetStatus a)) = true
      ∧ (removeConnectionClients clients conn).contains conn = false := by
  refine ⟨?_, ?_, ?_⟩
  · simp only [removeConnectionTrace]
    exact regWStateOK_removeShape isMapDelete rfl rfl _ (removeBody_plain _)
  · simp only [removeConnectionTrace]
    exact all_removeShape _ rfl rfl _ (removeBody_plain _) plain_not_setStatus
  · simp [removeConnectionClients]

end GoLibs.Websockets

namespace GoLibs.Websockets

/-- C3 counterexample: two clients, the write to client 2 fails; the
broadcast makes 2 attempts and 1 succeeds, yet the messages-sent counter is
incremented twice, so the counter does not equal the number of successful
writes. -/
theorem broadcastCompletenessClaim_refuted :
    broadcastCompletenessClaim [1, 2] (fun c => c == 1) "hi" = false := by
  decide

/-- C3 amended theorem: for a broadcast whose payload is a string, exactly
one write is attempted per registered client — a failed write does not stop
the remaining deliveries — and the messages-sent counter increases by the
number of attempted writes, whether or not each write succeeds. -/
theorem broadcast_attempts_and_counter (clients : List Nat)
    (writeOk : Nat → Bool) (s : String) :
    countWrites (broadcastTrace clients writeOk (Payload.str s))
        = clients.length
      ∧ countSentIncrements (broadcastTrace clients writeOk (Payload.str s))
        = clients.length := by
  constructor
  · simp only [broadcastTrace, countWrites, List.countP_cons, List.countP_append]
    rw [countWrites_block]
    simp [isWriteA, isIncrSentA]
  · simp only [broadcastTrace, countSentIncrements, List.countP_cons,
      List.countP_append]
    rw [countSent_block]
    simp [isIncrSentA]

/-- C6 theorem: at the failing input (connection handle 1, string payload,
a successful transport), the echo reply and the health-check reply are
written with no per-entry lock held, while a broadcast write to the same
handle does hold the entry's lock — so echo and health-check writes violate
the single-writer discipline. -/
theorem echo_and_healthcheck_write_without_lock :
    writesLockedAux (echoTrace 1 true (Payload.str "ping")) [] = false
      ∧ writesLockedAux (healthCheckTrace 1 true) [] = false
      ∧ writesLockedAux (broadcastTrace [1, 2] (fun _ => true)
          (Payload.str "hi")) [] = true := by
  decide

end GoLibs.Websockets

namespace GoLibs.Websockets

/-- C4 theorem: with the standard handlers registered, a non-JSON frame is
dropped (counter still incremented, loop continues), but a well-formed JSON
object whose `type` field is missing, or present with a non-string value,
makes the dispatch panic on the unchecked `messageData["type"].(string)`
assertion instead of being dropped. -/
theorem malformed_type_field_panics :
    rootLoopIter (enableAll (newServer "8080")).wsConnHandlers
        (ReadResult.ok Frame.notJson)
        = IterResult.cont true LoopOutcome.dropped
      ∧ rootLoopIter (enableAll (newServer "8080")).wsConnHandlers
        (ReadResult.ok (Frame.jsonObj [("payload", JsonVal.num 1)]))
        = IterResult.cont true LoopOutcome.panicked
      ∧ rootLoopIter (enableAll (newServer "8080")).wsConnHandlers
        (ReadResult.ok (Frame.jsonObj [("type", JsonVal.num 7)]))
        = IterResult.cont true LoopOutcome.panicked := by
  decide

/-- C5 theorem: a read error of an expected dynamic type
(`*websocket.CloseError`, `*net.OpError`) breaks the read loop, but any
other read error does not break it — the iteration falls through,
increments the messages-received counter and continues — so the
classification changes the recovery path, not just the logging. -/
theorem unexpected_read_error_does_not_break :
    rootLoopIter (enableAll (newServer "8080")).wsConnHandlers
        (ReadResult.err ErrType.closeError) = IterResult.breakLoop
      ∧ rootLoopIter (enableAll (newServer "8080")).wsConnHandlers
        (ReadResult.err ErrType.opError) = IterResult.breakLoop
      ∧ rootLoopIter (enableAll (newServer "8080")).wsConnHandlers
        (ReadResult.err ErrType.otherErr)
        = IterResult.cont true LoopOutcome.dropped := by
  decide

/-- C7 theorem: calling `Stop` on a server that was never started returns
the "server has not been started" error, leaves the state untouched, and
performs no action at all: no connection termination, no telemetry, no
listener shutdown. -/
theorem stop_before_start_no_side_effects (s : SrvState)
    (h : s.started = false) :
    stopFn s = (Except.error "server has not been started", s, []) := by
  simp [stopFn, h]

/-- Witness for C7 at a concrete unstarted server state. -/
theorem stop_before_start_no_side_effects_witness :
    stopFn ⟨false, [3, 4], ⟨2, 5, 7⟩⟩
      = (Except.error "server has not been started",
         (⟨false, [3, 4], ⟨2, 5, 7⟩⟩ : SrvState), []) :=
  stop_before_start_no_side_effects ⟨false, [3, 4], ⟨2, 5, 7⟩⟩ rfl

/-- C8 theorem: if the server first becomes reachable (dial and health-check
write both succeed) on 0-based attempt `k` with `k < 10`, `BlockUntilReady`
succeeds after exactly `k + 1` attempts; if it is never reachable in the
first 10 attempts, it makes exactly 10 attempts and returns the
"server not ready after 10 attempts" error. -/
theorem blockUntilReady_bounded_retry (dialOk writeOk : Nat → Bool) (k : Nat) :
    (k < 10 → (dialOk k && writeOk k) = true →
        (∀ j, j < k → (dialOk j && writeOk j) = false) →
        blockUntilReady dialOk writeOk = (Except.ok (), k + 1))
      ∧ ((∀ i, i < 10 → (dialOk i && writeOk i) = false) →
        blockUntilReady dialOk writeOk
          = (Except.error "server not ready after 10 attempts", 10)) := by
  constructor
  · intro h1 h2 h3
    exact readyLoop_first_success dialOk writeOk 10 0 k (Nat.zero_le k)
      (by omega) h2 (fun j _ hj => h3 j hj)
  · intro h
    have hall := readyLoop_all_fail dialOk writeOk 10 0
      (fun j _ hj => h j (by omega))
    rw [notReady_message] at hall
    exact hall

/-- Witness for C8: a server reachable from attempt 3 onward succeeds on
the fourth attempt; a never-reachable server fails after 10 attempts with
the expected error. -/
theorem blockUntilReady_bounded_retry_witness :
    blockUntilReady (fun i => decide (3 ≤ i)) (fun i => decide (3 ≤ i))
        = (Except.ok (), 4)
      ∧ blockUntilReady (fun _ => false) (fun _ => false)
        = (Except.error "server not ready after 10 attempts", 10) := by
  constructor
  · exact (blockUntilReady_bounded_retry (fun i => decide (3 ≤ i))
      (fun i => decide (3 ≤ i)) 3).1 (by decide) (by decide)
      (fun j hj => by interval_cases j <;> rfl)
  · exact (blockUntilReady_bounded_retry (fun _ => false) (fun _ => false) 0).2
      (fun i _ => rfl)

/-- C10 theorem: every request, whatever its URL path, is dispatched by
`ServeHTTP` to the root socket handler registered at construction time;
the route map holds exactly that one entry, and no path is routed to a
404 handler. -/
theorem serveHTTP_always_base_handler (portArg requestPath : String) :
    serveHTTP (newServer portArg) requestPath = HttpHandler.rootSocket
      ∧ (newServer portArg).defaultHandler
        = [((newServer portArg).baseRoute, HttpHandler.rootSocket)] := by
  constructor
  · simp [serveHTTP, newServer, List.lookup]
  · rfl

end GoLibs.Websockets
